import Mathlib

/-!
Shallow embedding of `src/rauc-installer.c` (rauc-hawkbit-updater RAUC client).

The C file drives a RAUC installation over D-Bus from a dedicated worker
thread.  We embed:

* `struct install_context` as `InstallContext` (the GLib mutex itself is not
  state we track; instead every handler emits a `MicroAction` trace recording
  lock/unlock/store/push/invoke steps, so that the "under the mutex" and
  "scheduled on which context" facts are visible);
* the payload of a `g-properties-changed` emission as `ChangedProps` (the
  results of the three `g_variant_lookup` calls the handler performs) plus the
  `invalidated` string array;
* `on_installer_status`, `on_installer_completed`, `install_context_new`,
  `rauc_install`, and `install_loop_thread` as executable functions.

GMainContext values are modelled as `Nat` identifiers.  `g_main_context_new`
in `rauc_install` returns a fresh context, modelled as an identifier distinct
from the caller's (`callerContext + 1`).  The worker's `GMainLoop` is built on
that same fresh context (`g_main_loop_new(loop_context, FALSE)`), recorded in
`Session.mainloopContext`.

The worker thread dispatches D-Bus signals sequentially from its main loop;
`g_main_loop_quit` makes `g_main_loop_run` return at the end of the current
dispatch, after which the handlers are disconnected, so signals arriving after
a quit are never dispatched.  `runLoop` therefore folds a signal trace until
the quit flag is set.  `g_main_context_invoke` on a context owned by the
current thread calls the function directly; an on-event callback that fully
drains the queue is modelled by the `drain` flag of `runStep`.
-/

namespace RaucInstaller

/-- Payload of one `g-properties-changed` notification: the results of the
three `g_variant_lookup` calls in `on_installer_status` ("Operation" as "s",
"Progress" as "(isi)", "LastError" as "s"). -/
structure ChangedProps where
  operation : Option String
  progress : Option (Int × String × Int)
  lastError : Option String

/-- State of `struct install_context`: bundle path, terminal result field,
the `status_messages` GQueue (front of list = head of queue), the two
caller-supplied callbacks (tracked only as registered / not registered), and
whether `g_main_loop_quit` has been requested on the worker's main loop. -/
structure InstallContext where
  bundle : String
  status_result : Int
  status_messages : List String
  notify_event : Bool
  notify_complete : Bool
  quit : Bool

/-- GMainContext identities of one session: the caller's thread-default
context at the time of the `rauc_install` call, the `loop_context` created by
`g_main_context_new()` inside `rauc_install`, and the context the worker's
`GMainLoop` was built on. -/
structure Session where
  callerContext : Nat
  loopContext : Nat
  mainloopContext : Nat

/-- Observable micro-steps performed by the C code, in program order:
mutex operations on `status_mutex`, stores to `status_result`, pushes onto the
`status_messages` queue, `g_main_loop_quit`, `g_main_context_invoke` (with its
target context), entering `g_main_loop_run`, disconnecting the signal
handlers, calling `notify_complete`, and `install_context_free`. -/
inductive MicroAction where
  | lockStatusMutex
  | unlockStatusMutex
  | storeStatusResult (r : Int)
  | pushTail (msg : String)
  | mainLoopQuit
  | contextInvoke (target : Nat)
  | enterMainLoop
  | disconnectHandlers
  | invokeComplete
  | freeContext

/-- One D-Bus signal dispatched to the worker thread: either a
`g-properties-changed` emission (with its invalidated-properties array and
changed-properties dictionary) or a `completed` emission with its result. -/
inductive DBusSignal where
  | propertiesChanged (invalidated : List String) (changed : ChangedProps)
  | completed (result : Int)

/-- Outcome of the setup phase of `install_loop_thread`: failure of
`r_installer_proxy_new_for_bus_sync`, of either `g_signal_connect`, of
`r_installer_call_install_sync`, or success of all four. -/
inductive SetupOutcome where
  | proxyFail
  | connectStatusFail
  | connectCompletedFail
  | installCallFail
  | ok

/-- Output of `printf`-style `%3d` for a `gint32`: right-aligned in a field of
minimum width 3, space padded. -/
def printf_width3 (n : Int) : String :=
  if (toString n).length < 3 then
    String.mk (List.replicate (3 - (toString n).length) ' ') ++ toString n
  else
    toString n

/-- Classification chain of `on_installer_status` (lines 53-59 of the C file):
an "Operation" string is pushed as-is (`g_strdup(message)`); otherwise a
"Progress" `(isi)` triple is formatted as `"%3d%% %s"` with the percentage and
message (the depth is looked up but not used); otherwise a non-empty
"LastError" string is pushed with the `"LastError: "` prefix.  Returns the
message pushed onto the queue, if any. -/
def classify (changed : ChangedProps) : Option String :=
  match changed.operation with
  | some message => some message
  | none =>
    match changed.progress with
    | some (percentage, message, _) => some (printf_width3 percentage ++ "% " ++ message)
    | none =>
      match changed.lastError with
      | some message => if message ≠ "" then some ("LastError: " ++ message) else none
      | none => none

/-- Embedding of `on_installer_status` (lines 34-66).  If the invalidated
array is non-empty the RAUC service disappeared: store 2 into
`status_result` under the mutex, quit the main loop, and return.  Otherwise,
only when `notify_event` is registered: push the classified record (if any)
under the mutex, then, if the queue is non-empty, `g_main_context_invoke` the
on-event callback on `context->loop_context`. -/
def on_installer_status (s : Session) (ctx : InstallContext)
    (invalidated : List String) (changed : ChangedProps) :
    InstallContext × List MicroAction :=
  if invalidated ≠ [] then
    ({ ctx with status_result := 2, quit := true },
     [MicroAction.lockStatusMutex, MicroAction.storeStatusResult 2,
      MicroAction.unlockStatusMutex, MicroAction.mainLoopQuit])
  else if ctx.notify_event then
    ({ ctx with status_messages := ctx.status_messages ++ (classify changed).toList },
     [MicroAction.lockStatusMutex]
       ++ (classify changed).toList.map MicroAction.pushTail
       ++ [MicroAction.unlockStatusMutex]
       ++ (if (ctx.status_messages ++ (classify changed).toList).isEmpty then []
           else [MicroAction.contextInvoke s.loopContext]))
  else
    (ctx, [])

/-- Embedding of `on_installer_completed` (lines 73-85): store the received
result into `status_result` under `status_mutex`, then quit the main loop if
and only if the result is non-negative. -/
def on_installer_completed (ctx : InstallContext) (result : Int) :
    InstallContext × List MicroAction :=
  ({ ctx with status_result := result, quit := ctx.quit || decide (0 ≤ result) },
   [MicroAction.lockStatusMutex, MicroAction.storeStatusResult result,
    MicroAction.unlockStatusMutex]
     ++ (if 0 ≤ result then [MicroAction.mainLoopQuit] else []))

/-- Embedding of `install_context_new` (lines 93-102): zero-initialised
context with `status_result = -2`. -/
def install_context_new : InstallContext :=
  { bundle := "", status_result := -2, status_messages := [],
    notify_event := false, notify_complete := false, quit := false }

/-- Embedding of `rauc_install` (lines 188-202): create a fresh
`loop_context` via `g_main_context_new()` (a context distinct from the
caller's, modelled as `callerContext + 1`), build the context, record the
callbacks, build the main loop on `loop_context`, set `status_result = 2`,
and hand the context to the new installer thread. -/
def rauc_install (callerContext : Nat) (bundle : String)
    (on_install_notify on_install_complete : Bool) : Session × InstallContext :=
  ({ callerContext := callerContext, loopContext := callerContext + 1,
     mainloopContext := callerContext + 1 },
   { install_context_new with
      bundle := bundle,
      notify_event := on_install_notify,
      notify_complete := on_install_complete,
      status_result := 2 })

/-- The two fatal assertions of `install_context_free` (lines 117-118):
`g_assert_cmpint(context->status_result, >=, 0)` and
`g_assert_true(g_queue_is_empty(&context->status_messages))`. -/
def install_context_free_ok (ctx : InstallContext) : Bool :=
  decide (0 ≤ ctx.status_result) && ctx.status_messages.isEmpty

/-- Whether a micro-action trace contains a `g_main_context_invoke` aimed at
the given context. -/
def hasInvoke (target : Nat) : List MicroAction → Bool
  | [] => false
  | MicroAction.contextInvoke t :: rest => t == target || hasInvoke target rest
  | _ :: rest => hasInvoke target rest

/-- Dispatch of one D-Bus signal inside the worker's main loop.  A
`g-properties-changed` emission runs `on_installer_status`; when that handler
issues `g_main_context_invoke` the worker thread owns `loop_context` (it is
running the main loop on it), so the on-event callback runs synchronously;
`drain = true` models a callback that fully drains `status_messages`. -/
def runStep (s : Session) (drain : Bool) (ctx : InstallContext) :
    DBusSignal → InstallContext × List MicroAction
  | DBusSignal.propertiesChanged invalidated changed =>
    if drain &&
        hasInvoke s.loopContext (on_installer_status s ctx invalidated changed).2 then
      ({ (on_installer_status s ctx invalidated changed).1 with status_messages := [] },
       (on_installer_status s ctx invalidated changed).2)
    else
      on_installer_status s ctx invalidated changed
  | DBusSignal.completed result => on_installer_completed ctx result

/-- `g_main_loop_run` on the worker thread: dispatch signals in order until
`g_main_loop_quit` has been requested; signals arriving after the quit are
never dispatched (the loop has returned and the handlers are disconnected
right after).  Returns the final context and the concatenated micro-action
trace. -/
def runLoop (s : Session) (drain : Bool) (ctx : InstallContext) :
    List DBusSignal → InstallContext × List MicroAction
  | [] => (ctx, [])
  | e :: rest =>
    if ctx.quit then (ctx, [])
    else
      ((runLoop s drain (runStep s drain ctx e).1 rest).1,
       (runStep s drain ctx e).2 ++ (runLoop s drain (runStep s drain ctx e).1 rest).2)

/-- The `out_loop` tail of `install_loop_thread` (lines 169-177): disconnect
the signal handlers, call `notify_complete` if registered, and free the
context. -/
def teardownActs (ctx : InstallContext) : List MicroAction :=
  [MicroAction.disconnectHandlers]
    ++ (if ctx.notify_complete then [MicroAction.invokeComplete] else [])
    ++ [MicroAction.freeContext]

/-- Embedding of `install_loop_thread` (lines 130-179).  On any setup failure
(proxy creation, either `g_signal_connect`, or the synchronous install call)
control jumps to `out_loop` without entering the main loop.  On successful
setup the main loop dispatches `events`; if the trace never requests a quit
the thread blocks forever (`none`).  A terminating run yields the context at
`install_context_free` time together with the full micro-action trace. -/
def install_loop_thread (s : Session) (setup : SetupOutcome) (drain : Bool)
    (events : List DBusSignal) (ctx : InstallContext) :
    Option (InstallContext × List MicroAction) :=
  match setup with
  | SetupOutcome.ok =>
    if (runLoop s drain ctx events).1.quit then
      some ((runLoop s drain ctx events).1,
        MicroAction.enterMainLoop ::
          ((runLoop s drain ctx events).2 ++ teardownActs (runLoop s drain ctx events).1))
    else
      none
  | _ => some (ctx, teardownActs ctx)

/-- Stores to `status_result` appearing in a micro-action trace, in order. -/
def storesOf (acts : List MicroAction) : List Int :=
  acts.filterMap fun a =>
    match a with
    | MicroAction.storeStatusResult r => some r
    | _ => none

@[simp]
theorem storesOf_append (l₁ l₂ : List MicroAction) :
    storesOf (l₁ ++ l₂) = storesOf l₁ ++ storesOf l₂ :=
  List.filterMap_append l₁ l₂ _

@[simp]
theorem storesOf_nil : storesOf [] = [] := rfl

@[simp]
theorem storesOf_cons_store (r : Int) (rest : List MicroAction) :
    storesOf (MicroAction.storeStatusResult r :: rest) = r :: storesOf rest := rfl

@[simp]
theorem storesOf_cons_lock (rest : List MicroAction) :
    storesOf (MicroAction.lockStatusMutex :: rest) = storesOf rest := rfl

@[simp]
theorem storesOf_cons_unlock (rest : List MicroAction) :
    storesOf (MicroAction.unlockStatusMutex :: rest) = storesOf rest := rfl

@[simp]
theorem storesOf_cons_push (m : String) (rest : List MicroAction) :
    storesOf (MicroAction.pushTail m :: rest) = storesOf rest := rfl

@[simp]
theorem storesOf_cons_quit (rest : List MicroAction) :
    storesOf (MicroAction.mainLoopQuit :: rest) = storesOf rest := rfl

@[simp]
theorem storesOf_cons_invoke (t : Nat) (rest : List MicroAction) :
    storesOf (MicroAction.contextInvoke t :: rest) = storesOf rest := rfl

@[simp]
theorem storesOf_cons_enter (rest : List MicroAction) :
    storesOf (MicroAction.enterMainLoop :: rest) = storesOf rest := rfl

@[simp]
theorem storesOf_cons_disconnect (rest : List MicroAction) :
    storesOf (MicroAction.disconnectHandlers :: rest) = storesOf rest := rfl

@[simp]
theorem storesOf_cons_complete (rest : List MicroAction) :
    storesOf (MicroAction.invokeComplete :: rest) = storesOf rest := rfl

@[simp]
theorem storesOf_cons_free (rest : List MicroAction) :
    storesOf (MicroAction.freeContext :: rest) = storesOf rest := rfl

@[simp]
theorem storesOf_map_pushTail (l : List String) :
    storesOf (l.map MicroAction.pushTail) = [] := by
  induction l with
  | nil => rfl
  | cons m rest ih => simpa using ih

theorem runLoop_of_quit (s : Session) (drain : Bool) (ctx : InstallContext)
    (events : List DBusSignal) (h : ctx.quit = true) :
    runLoop s drain ctx events = (ctx, []) := by
  cases events with
  | nil => rfl
  | cons e rest => simp [runLoop, h]

theorem on_installer_status_fields (s : Session) (ctx : InstallContext)
    (inv : List String) (changed : ChangedProps) :
    (on_installer_status s ctx inv changed).1.notify_event = ctx.notify_event ∧
    (on_installer_status s ctx inv changed).1.notify_complete = ctx.notify_complete ∧
    (on_installer_status s ctx inv changed).1.bundle = ctx.bundle := by
  unfold on_installer_status
  split
  · exact ⟨rfl, rfl, rfl⟩
  · split
    · exact ⟨rfl, rfl, rfl⟩
    · exact ⟨rfl, rfl, rfl⟩

theorem runStep_callbacks (s : Session) (drain : Bool) (ctx : InstallContext)
    (e : DBusSignal) :
    (runStep s drain ctx e).1.notify_event = ctx.notify_event ∧
    (runStep s drain ctx e).1.notify_complete = ctx.notify_complete := by
  cases e with
  | completed r => exact ⟨rfl, rfl⟩
  | propertiesChanged inv changed =>
    have hf := on_installer_status_fields s ctx inv changed
    simp only [runStep]
    split
    · exact ⟨hf.1, hf.2.1⟩
    · exact ⟨hf.1, hf.2.1⟩

theorem runLoop_callbacks (s : Session) (drain : Bool) (events : List DBusSignal) :
    ∀ ctx : InstallContext,
      (runLoop s drain ctx events).1.notify_event = ctx.notify_event ∧
      (runLoop s drain ctx events).1.notify_complete = ctx.notify_complete := by
  induction events with
  | nil => intro ctx; exact ⟨rfl, rfl⟩
  | cons e rest ih =>
    intro ctx
    by_cases h : ctx.quit = true
    · simp [runLoop, h]
    · have h' : ctx.quit = false := by simpa using h
      have h1 := runStep_callbacks s drain ctx e
      have h2 := ih (runStep s drain ctx e).1
      simp only [runLoop, h', if_false, Bool.false_eq_true]
      exact ⟨h2.1.trans h1.1, h2.2.trans h1.2⟩

theorem runStep_pc (s : Session) (drain : Bool) (ctx : InstallContext)
    (inv : List String) (changed : ChangedProps) :
    (runStep s drain ctx (DBusSignal.propertiesChanged inv changed)).2 =
      (on_installer_status s ctx inv changed).2 ∧
    (runStep s drain ctx (DBusSignal.propertiesChanged inv changed)).1.quit =
      (on_installer_status s ctx inv changed).1.quit ∧
    (runStep s drain ctx (DBusSignal.propertiesChanged inv changed)).1.status_result =
      (on_installer_status s ctx inv changed).1.status_result := by
  simp only [runStep]
  split
  · exact ⟨rfl, rfl, rfl⟩
  · exact ⟨rfl, rfl, rfl⟩

theorem on_installer_status_nil (s : Session) (ctx : InstallContext)
    (changed : ChangedProps) :
    (on_installer_status s ctx [] changed).1.quit = ctx.quit ∧
    (on_installer_status s ctx [] changed).1.status_result = ctx.status_result ∧
    storesOf (on_installer_status s ctx [] changed).2 = [] := by
  cases hne : ctx.notify_event with
  | false => simp [on_installer_status, hne]
  | true =>
    refine ⟨?_, ?_, ?_⟩ <;> simp [on_installer_status, hne]
    split <;> simp

theorem runStep_storesSpec (s : Session) (drain : Bool) (ctx : InstallContext)
    (e : DBusSignal) (h : ctx.quit = false) :
    (storesOf (runStep s drain ctx e).2 = [] ∧ (runStep s drain ctx e).1.quit = false ∧
       (runStep s drain ctx e).1.status_result = ctx.status_result) ∨
    (∃ r, storesOf (runStep s drain ctx e).2 = [r] ∧ r < 0 ∧
       (runStep s drain ctx e).1.quit = false) ∨
    (∃ v, storesOf (runStep s drain ctx e).2 = [v] ∧ 0 ≤ v ∧
       (runStep s drain ctx e).1.quit = true ∧
       (runStep s drain ctx e).1.status_result = v) := by
  cases e with
  | completed r =>
    by_cases hr : 0 ≤ r
    · refine Or.inr (Or.inr ⟨r, ?_, hr, ?_, rfl⟩)
      · simp [runStep, on_installer_completed, hr]
      · simp [runStep, on_installer_completed, h, hr]
    · refine Or.inr (Or.inl ⟨r, ?_, by omega, ?_⟩)
      · simp [runStep, on_installer_completed, hr]
      · simp [runStep, on_installer_completed, h, hr]
  | propertiesChanged inv changed =>
    obtain ⟨h2, hq, hs⟩ := runStep_pc s drain ctx inv changed
    cases inv with
    | cons x rest =>
      refine Or.inr (Or.inr ⟨2, ?_, by norm_num, ?_, ?_⟩)
      · rw [h2]; simp [on_installer_status]
      · rw [hq]; simp [on_installer_status]
      · rw [hs]; simp [on_installer_status]
    | nil =>
      obtain ⟨hnq, hns, hnst⟩ := on_installer_status_nil s ctx changed
      exact Or.inl ⟨by rw [h2]; exact hnst, by rw [hq, hnq]; exact h, by rw [hs, hns]⟩

theorem runStep_quit_nonneg (s : Session) (drain : Bool) (ctx : InstallContext)
    (e : DBusSignal) (h : ctx.quit = false)
    (hq : (runStep s drain ctx e).1.quit = true) :
    0 ≤ (runStep s drain ctx e).1.status_result := by
  rcases runStep_storesSpec s drain ctx e h with ⟨_, hf, _⟩ | ⟨r, _, _, hf⟩ | ⟨v, _, hv, _, hs⟩
  · rw [hf] at hq; cases hq
  · rw [hf] at hq; cases hq
  · rw [hs]; exact hv

theorem runLoop_cons (s : Session) (drain : Bool) (ctx : InstallContext)
    (e : DBusSignal) (rest : List DBusSignal) (h : ctx.quit = false) :
    runLoop s drain ctx (e :: rest) =
      ((runLoop s drain (runStep s drain ctx e).1 rest).1,
       (runStep s drain ctx e).2 ++ (runLoop s drain (runStep s drain ctx e).1 rest).2) := by
  simp [runLoop, h]

theorem runLoop_quit_nonneg (s : Session) (drain : Bool) (events : List DBusSignal) :
    ∀ ctx : InstallContext, ctx.quit = false →
      (runLoop s drain ctx events).1.quit = true →
      0 ≤ (runLoop s drain ctx events).1.status_result := by
  induction events with
  | nil =>
    intro ctx h hq
    simp only [runLoop] at hq
    rw [h] at hq
    cases hq
  | cons e rest ih =>
    intro ctx h hq
    rw [runLoop_cons s drain ctx e rest h] at hq ⊢
    by_cases h2 : (runStep s drain ctx e).1.quit = true
    · rw [runLoop_of_quit s drain _ rest h2] at hq ⊢
      exact runStep_quit_nonneg s drain ctx e h hq
    · exact ih (runStep s drain ctx e).1 (by simpa using h2) hq

theorem runStep_messages_drain (s : Session) (ctx : InstallContext) (e : DBusSignal)
    (h : ctx.status_messages = []) :
    (runStep s true ctx e).1.status_messages = [] := by
  cases e with
  | completed r => exact h
  | propertiesChanged inv changed =>
    cases inv with
    | cons x rest => simp [runStep, on_installer_status, hasInvoke, h]
    | nil =>
      cases hne : ctx.notify_event with
      | false => simp [runStep, on_installer_status, hasInvoke, hne, h]
      | true =>
        cases hc : classify changed with
        | none => simp [runStep, on_installer_status, hasInvoke, hne, hc, h]
        | some m => simp [runStep, on_installer_status, hasInvoke, hne, hc, h]

theorem runLoop_messages_drain (s : Session) (events : List DBusSignal) :
    ∀ ctx : InstallContext, ctx.status_messages = [] →
      (runLoop s true ctx events).1.status_messages = [] := by
  induction events with
  | nil => intro ctx h; exact h
  | cons e rest ih =>
    intro ctx h
    by_cases hq : ctx.quit = true
    · rw [runLoop_of_quit s true ctx (e :: rest) hq]; exact h
    · rw [runLoop_cons s true ctx e rest (by simpa using hq)]
      exact ih (runStep s true ctx e).1 (runStep_messages_drain s ctx e h)

theorem runLoop_storesSpec (s : Session) (drain : Bool) (events : List DBusSignal) :
    ∀ ctx : InstallContext, ctx.quit = false →
      (∀ r ∈ (storesOf (runLoop s drain ctx events).2).dropLast, r < 0) ∧
      ((runLoop s drain ctx events).1.quit = true →
        ∃ v, (storesOf (runLoop s drain ctx events).2).getLast? = some v ∧ 0 ≤ v ∧
          (runLoop s drain ctx events).1.status_result = v) := by
  induction events with
  | nil =>
    intro ctx h
    refine ⟨by simp [runLoop], ?_⟩
    intro hq
    simp only [runLoop] at hq
    rw [h] at hq
    cases hq
  | cons e rest ih =>
    intro ctx h
    rw [runLoop_cons s drain ctx e rest h]
    rcases runStep_storesSpec s drain ctx e h with
      ⟨hs0, hq0, _⟩ | ⟨r, hs1, hrneg, hq0⟩ | ⟨v, hs1, hv0, hq1, hvs⟩
    · obtain ⟨ih1, ih2⟩ := ih (runStep s drain ctx e).1 hq0
      simp only [storesOf_append, hs0, List.nil_append]
      exact ⟨ih1, ih2⟩
    · obtain ⟨ih1, ih2⟩ := ih (runStep s drain ctx e).1 hq0
      simp only [storesOf_append, hs1, List.cons_append, List.nil_append]
      constructor
      · intro x hx
        cases hS : storesOf (runLoop s drain (runStep s drain ctx e).1 rest).2 with
        | nil => rw [hS] at hx; simp at hx
        | cons b t =>
          rw [hS] at hx
          rw [List.dropLast_cons₂] at hx
          rcases List.mem_cons.mp hx with hxr | hxm
          · omega
          · rw [hS] at ih1; exact ih1 x hxm
      · intro hqF
        obtain ⟨v, hv, hv0, hvs⟩ := ih2 hqF
        cases hS : storesOf (runLoop s drain (runStep s drain ctx e).1 rest).2 with
        | nil => rw [hS] at hv; cases hv
        | cons b t =>
          refine ⟨v, ?_, hv0, hvs⟩
          rw [List.getLast?_cons_cons]
          rw [hS] at hv
          exact hv
    · rw [runLoop_of_quit s drain _ rest hq1]
      simp only [storesOf_append, hs1, List.append_nil]
      refine ⟨by simp, fun _ => ⟨v, by simp, hv0, hvs⟩⟩

theorem on_installer_status_no_teardown (s : Session) (ctx : InstallContext)
    (inv : List String) (changed : ChangedProps) :
    MicroAction.invokeComplete ∉ (on_installer_status s ctx inv changed).2 ∧
    MicroAction.freeContext ∉ (on_installer_status s ctx inv changed).2 := by
  cases inv with
  | cons x rest => simp [on_installer_status]
  | nil =>
    cases hne : ctx.notify_event with
    | false => simp [on_installer_status, hne]
    | true =>
      constructor <;> simp only [on_installer_status, hne] <;> split <;> simp

theorem runStep_no_teardown (s : Session) (drain : Bool) (ctx : InstallContext)
    (e : DBusSignal) :
    MicroAction.invokeComplete ∉ (runStep s drain ctx e).2 ∧
    MicroAction.freeContext ∉ (runStep s drain ctx e).2 := by
  cases e with
  | completed r =>
    constructor <;> simp [runStep, on_installer_completed]
  | propertiesChanged inv changed =>
    have heq : (runStep s drain ctx (DBusSignal.propertiesChanged inv changed)).2 =
        (on_installer_status s ctx inv changed).2 := by
      simp only [runStep]; split <;> rfl
    rw [heq]
    exact on_installer_status_no_teardown s ctx inv changed

theorem runLoop_no_teardown (s : Session) (drain : Bool) (events : List DBusSignal) :
    ∀ ctx : InstallContext,
      MicroAction.invokeComplete ∉ (runLoop s drain ctx events).2 ∧
      MicroAction.freeContext ∉ (runLoop s drain ctx events).2 := by
  induction events with
  | nil => intro ctx; simp [runLoop]
  | cons e rest ih =>
    intro ctx
    by_cases h : ctx.quit = true
    · simp [runLoop, h]
    · have h' : ctx.quit = false := by simpa using h
      have h1 := runStep_no_teardown s drain ctx e
      have h2 := ih (runStep s drain ctx e).1
      constructor <;>
        simp only [runLoop, h', if_false, Bool.false_eq_true, List.mem_append] <;>
        rintro (hmem | hmem)
      · exact h1.1 hmem
      · exact h2.1 hmem
      · exact h1.2 hmem
      · exact h2.2 hmem

theorem teardown_complete_shape (ctx : InstallContext) (h : ctx.notify_complete = true) :
    ∃ pre, teardownActs ctx = pre ++ [MicroAction.invokeComplete, MicroAction.freeContext] ∧
      MicroAction.invokeComplete ∉ pre ∧ MicroAction.freeContext ∉ pre := by
  refine ⟨[MicroAction.disconnectHandlers], ?_, by simp, by simp⟩
  simp [teardownActs, h]

theorem exists_pre_extend (front tail : List MicroAction)
    (hic : MicroAction.invokeComplete ∉ front) (hfc : MicroAction.freeContext ∉ front)
    (h : ∃ pre, tail = pre ++ [MicroAction.invokeComplete, MicroAction.freeContext] ∧
      MicroAction.invokeComplete ∉ pre ∧ MicroAction.freeContext ∉ pre) :
    ∃ pre, front ++ tail = pre ++ [MicroAction.invokeComplete, MicroAction.freeContext] ∧
      MicroAction.invokeComplete ∉ pre ∧ MicroAction.freeContext ∉ pre := by
  obtain ⟨pre, rfl, h1, h2⟩ := h
  refine ⟨front ++ pre, by simp [List.append_assoc], ?_, ?_⟩
  · simp only [List.mem_append, not_or]
    exact ⟨hic, h1⟩
  · simp only [List.mem_append, not_or]
    exact ⟨hfc, h2⟩

/-- C1: for every terminating run of `install_loop_thread` on a session built
by `rauc_install` with an on-complete callback registered — whether it ends in
remote-reported success or failure, proxy-creation failure, either
signal-subscription failure, synchronous install-invocation failure, or
mid-flight disconnect — the `notify_complete` callback is invoked exactly
once, and strictly before `install_context_free` releases the session's
resources: the action trace is some prefix free of completion and free
actions, followed by exactly `invokeComplete` then `freeContext`. -/
theorem c1_on_complete_exactly_once_before_free (callerCtx : Nat) (bundle : String)
    (ne : Bool) (setup : SetupOutcome) (drain : Bool) (events : List DBusSignal)
    (ctxF : InstallContext) (acts : List MicroAction)
    (h : install_loop_thread (rauc_install callerCtx bundle ne true).1 setup drain
        events (rauc_install callerCtx bundle ne true).2 = some (ctxF, acts)) :
    ∃ pre, acts = pre ++ [MicroAction.invokeComplete, MicroAction.freeContext] ∧
      MicroAction.invokeComplete ∉ pre ∧ MicroAction.freeContext ∉ pre := by
  have hnc : (rauc_install callerCtx bundle ne true).2.notify_complete = true := rfl
  cases setup with
  | ok =>
    simp only [install_loop_thread] at h
    split at h
    case isTrue hq =>
      rw [Option.some.injEq, Prod.mk.injEq] at h
      obtain ⟨-, hacts⟩ := h
      subst hacts
      have hncF : (runLoop (rauc_install callerCtx bundle ne true).1 drain
          (rauc_install callerCtx bundle ne true).2 events).1.notify_complete = true :=
        ((runLoop_callbacks _ drain events _).2).trans hnc
      have hnt := runLoop_no_teardown (rauc_install callerCtx bundle ne true).1 drain
        events (rauc_install callerCtx bundle ne true).2
      refine exists_pre_extend
        (MicroAction.enterMainLoop :: (runLoop (rauc_install callerCtx bundle ne true).1
          drain (rauc_install callerCtx bundle ne true).2 events).2) _ ?_ ?_
        (teardown_complete_shape _ hncF)
      · simp only [List.mem_cons, not_or]
        exact ⟨by simp, hnt.1⟩
      · simp only [List.mem_cons, not_or]
        exact ⟨by simp, hnt.2⟩
    case isFalse => cases h
  | proxyFail =>
    simp only [install_loop_thread] at h
    rw [Option.some.injEq, Prod.mk.injEq] at h
    obtain ⟨-, hacts⟩ := h
    subst hacts
    exact teardown_complete_shape _ hnc
  | connectStatusFail =>
    simp only [install_loop_thread] at h
    rw [Option.some.injEq, Prod.mk.injEq] at h
    obtain ⟨-, hacts⟩ := h
    subst hacts
    exact teardown_complete_shape _ hnc
  | connectCompletedFail =>
    simp only [install_loop_thread] at h
    rw [Option.some.injEq, Prod.mk.injEq] at h
    obtain ⟨-, hacts⟩ := h
    subst hacts
    exact teardown_complete_shape _ hnc
  | installCallFail =>
    simp only [install_loop_thread] at h
    rw [Option.some.injEq, Prod.mk.injEq] at h
    obtain ⟨-, hacts⟩ := h
    subst hacts
    exact teardown_complete_shape _ hnc

/-- C1 witness: the concrete proxy-creation-failure run with both callbacks
registered: the trace is `[disconnectHandlers, invokeComplete, freeContext]`,
so `invokeComplete` occurs exactly once and before `freeContext`. -/
theorem c1_witness :
    ∃ pre, [MicroAction.disconnectHandlers, MicroAction.invokeComplete,
        MicroAction.freeContext] =
        pre ++ [MicroAction.invokeComplete, MicroAction.freeContext] ∧
      MicroAction.invokeComplete ∉ pre ∧ MicroAction.freeContext ∉ pre :=
  c1_on_complete_exactly_once_before_free 0 "bundle.raucb" true SetupOutcome.proxyFail
    false []
    { bundle := "bundle.raucb", status_result := 2, status_messages := [],
      notify_event := true, notify_complete := true, quit := false }
    [MicroAction.disconnectHandlers, MicroAction.invokeComplete, MicroAction.freeContext]
    (by rfl)

theorem on_installer_status_invoke_target (s : Session) (ctx : InstallContext)
    (inv : List String) (changed : ChangedProps) (t : Nat)
    (h : MicroAction.contextInvoke t ∈ (on_installer_status s ctx inv changed).2) :
    t = s.loopContext := by
  cases inv with
  | cons x rest => simp [on_installer_status] at h
  | nil =>
    cases hne : ctx.notify_event with
    | false => simp [on_installer_status, hne] at h
    | true =>
      cases hm : (ctx.status_messages ++ (classify changed).toList).isEmpty with
      | true => simp [on_installer_status, hne, hm] at h
      | false =>
        simp [on_installer_status, hne, hm] at h
        exact h

/-- C2 counterexample: on a session built by `rauc_install` from a caller
running in context 0, the handler's `g_main_context_invoke` for a classified
"Operation" notification targets the worker's own main-loop context (the
fresh `loop_context`), and not the caller's original context — contradicting
the claim that delivery is scheduled into the caller's context. -/
theorem c2_counterexample :
    MicroAction.contextInvoke
        ((rauc_install 0 "bundle.raucb" true true).1.mainloopContext) ∈
      (on_installer_status (rauc_install 0 "bundle.raucb" true true).1
        (rauc_install 0 "bundle.raucb" true true).2 []
        ⟨some "installing", none, none⟩).2 ∧
    MicroAction.contextInvoke
        ((rauc_install 0 "bundle.raucb" true true).1.callerContext) ∉
      (on_installer_status (rauc_install 0 "bundle.raucb" true true).1
        (rauc_install 0 "bundle.raucb" true true).2 []
        ⟨some "installing", none, none⟩).2 ∧
    (rauc_install 0 "bundle.raucb" true true).1.mainloopContext ≠
      (rauc_install 0 "bundle.raucb" true true).1.callerContext := by
  refine ⟨?_, ?_, ?_⟩
  · simp [on_installer_status, rauc_install, install_context_new, classify]
  · simp [on_installer_status, rauc_install, install_context_new, classify]
  · simp [rauc_install]

/-- C2 (amended): whenever `on_installer_status` schedules delivery of the
on-event callback, the `g_main_context_invoke` target is the session's own
`loop_context` — the very context the worker's `GMainLoop` runs on — which is
a fresh context distinct from the caller's original execution context. -/
theorem c2_amended_delivery_on_worker_context (callerCtx : Nat) (bundle : String)
    (ne nc : Bool) (ctx : InstallContext) (inv : List String)
    (changed : ChangedProps) (t : Nat) :
    (MicroAction.contextInvoke t ∈
        (on_installer_status (rauc_install callerCtx bundle ne nc).1 ctx inv changed).2 →
      t = (rauc_install callerCtx bundle ne nc).1.mainloopContext) ∧
    (rauc_install callerCtx bundle ne nc).1.mainloopContext =
      (rauc_install callerCtx bundle ne nc).1.loopContext ∧
    (rauc_install callerCtx bundle ne nc).1.loopContext ≠
      (rauc_install callerCtx bundle ne nc).1.callerContext := by
  refine ⟨?_, rfl, ?_⟩
  · intro h
    exact on_installer_status_invoke_target _ ctx inv changed t h
  · simp [rauc_install]

/-- C2 amended witness: in the concrete session started from caller context
0, the scheduled delivery target 1 is the worker main-loop context. -/
theorem c2_amended_witness :
    (1 : Nat) = (rauc_install 0 "bundle.raucb" true true).1.mainloopContext :=
  (c2_amended_delivery_on_worker_context 0 "bundle.raucb" true true
    (rauc_install 0 "bundle.raucb" true true).2 []
    ⟨some "installing", none, none⟩ 1).1
    (by simp [on_installer_status, rauc_install, install_context_new, classify])

/-- C3 counterexample: with no on-event callback registered, a notification
whose payload classifies to a record (here an "Operation") appends nothing to
the event queue — the handler is a complete no-op — contradicting the claim
that the record is appended regardless of callback registration. -/
theorem c3_counterexample :
    classify ⟨some "installing", none, none⟩ = some "installing" ∧
    on_installer_status (rauc_install 0 "bundle.raucb" false true).1
        (rauc_install 0 "bundle.raucb" false true).2 []
        ⟨some "installing", none, none⟩ =
      ((rauc_install 0 "bundle.raucb" false true).2, []) := by
  exact ⟨rfl, rfl⟩

/-- C3 (amended): a record is appended to the event queue only when an
on-event callback is registered (with none, the handler does nothing); when a
callback is registered the classified record (if any) is appended, a delivery
request is scheduled if and only if the queue is non-empty after the append,
and in particular every push is followed by at least one delivery request. -/
theorem c3_amended_push_and_delivery (s : Session) (ctx : InstallContext)
    (changed : ChangedProps) :
    (ctx.notify_event = false →
      on_installer_status s ctx [] changed = (ctx, [])) ∧
    (ctx.notify_event = true →
      (on_installer_status s ctx [] changed).1.status_messages =
        ctx.status_messages ++ (classify changed).toList ∧
      (MicroAction.contextInvoke s.loopContext ∈
          (on_installer_status s ctx [] changed).2 ↔
        (on_installer_status s ctx [] changed).1.status_messages ≠ []) ∧
      (∀ m, classify changed = some m →
        MicroAction.contextInvoke s.loopContext ∈
          (on_installer_status s ctx [] changed).2)) := by
  refine ⟨fun h => by simp [on_installer_status, h], fun h => ⟨?_, ?_, ?_⟩⟩
  · simp [on_installer_status, h]
  · by_cases hm : ctx.status_messages ++ (classify changed).toList = []
    · simp [on_installer_status, h, hm]
    · simp [on_installer_status, h, hm]
  · intro m hm
    simp [on_installer_status, h, hm]

/-- C3 amended witness: in a concrete session with the on-event callback
registered, an "Operation" notification appends the classified record. -/
theorem c3_amended_witness :
    (on_installer_status (rauc_install 0 "bundle.raucb" true true).1
        (rauc_install 0 "bundle.raucb" true true).2 []
        ⟨some "installing", none, none⟩).1.status_messages =
      (rauc_install 0 "bundle.raucb" true true).2.status_messages ++
        (classify ⟨some "installing", none, none⟩).toList :=
  ((c3_amended_push_and_delivery (rauc_install 0 "bundle.raucb" true true).1
    (rauc_install 0 "bundle.raucb" true true).2
    ⟨some "installing", none, none⟩).2 rfl).1

/-- C4: in every terminating run of a session — any setup outcome, any signal
trace — under the assumption that a registered on-event callback fully drains
the queue each time it runs (`drain = true`), the context handed to
`install_context_free` has a present terminal result (`status_result ≥ 0`)
and an empty event queue, so neither fatal assertion in the destructor
fires. -/
theorem c4_free_assertions_hold (callerCtx : Nat) (bundle : String) (ne nc : Bool)
    (setup : SetupOutcome) (events : List DBusSignal)
    (ctxF : InstallContext) (acts : List MicroAction)
    (h : install_loop_thread (rauc_install callerCtx bundle ne nc).1 setup true events
        (rauc_install callerCtx bundle ne nc).2 = some (ctxF, acts)) :
    install_context_free_ok ctxF = true := by
  have hq0 : (rauc_install callerCtx bundle ne nc).2.quit = false := rfl
  have hm0 : (rauc_install callerCtx bundle ne nc).2.status_messages = [] := rfl
  cases setup with
  | ok =>
    simp only [install_loop_thread] at h
    split at h
    case isTrue hq =>
      rw [Option.some.injEq, Prod.mk.injEq] at h
      obtain ⟨hctx, -⟩ := h
      subst hctx
      have h1 := runLoop_quit_nonneg (rauc_install callerCtx bundle ne nc).1 true events
        (rauc_install callerCtx bundle ne nc).2 hq0 hq
      have h2 := runLoop_messages_drain (rauc_install callerCtx bundle ne nc).1 events
        (rauc_install callerCtx bundle ne nc).2 hm0
      simp [install_context_free_ok, h1, h2]
    case isFalse => cases h
  | proxyFail =>
    simp only [install_loop_thread] at h
    rw [Option.some.injEq, Prod.mk.injEq] at h
    obtain ⟨hctx, -⟩ := h
    subst hctx
    rfl
  | connectStatusFail =>
    simp only [install_loop_thread] at h
    rw [Option.some.injEq, Prod.mk.injEq] at h
    obtain ⟨hctx, -⟩ := h
    subst hctx
    rfl
  | connectCompletedFail =>
    simp only [install_loop_thread] at h
    rw [Option.some.injEq, Prod.mk.injEq] at h
    obtain ⟨hctx, -⟩ := h
    subst hctx
    rfl
  | installCallFail =>
    simp only [install_loop_thread] at h
    rw [Option.some.injEq, Prod.mk.injEq] at h
    obtain ⟨hctx, -⟩ := h
    subst hctx
    rfl

/-- C4 witness: the concrete successful run `completed(0)` ends with
`status_result = 0` and an empty queue, so the destructor's assertions
hold. -/
theorem c4_witness :
    install_context_free_ok
      { bundle := "bundle.raucb", status_result := 0, status_messages := [],
        notify_event := true, notify_complete := true, quit := true } = true :=
  c4_free_assertions_hold 0 "bundle.raucb" true true SetupOutcome.ok
    [DBusSignal.completed 0]
    { bundle := "bundle.raucb", status_result := 0, status_messages := [],
      notify_event := true, notify_complete := true, quit := true }
    [MicroAction.enterMainLoop, MicroAction.lockStatusMutex,
     MicroAction.storeStatusResult 0, MicroAction.unlockStatusMutex,
     MicroAction.mainLoopQuit, MicroAction.disconnectHandlers,
     MicroAction.invokeComplete, MicroAction.freeContext]
    (by rfl)

/-- C5 counterexample: in the terminating run whose remote emits
`completed(-1)` followed by `completed(0)`, the completion handler records a
result into `status_result` twice — the stores performed by the handlers are
`[-1, 0]`, not a single store — and the first recorded result is overwritten
by the later completion notification (the final `status_result` is 0). -/
theorem c5_counterexample :
    ((install_loop_thread (rauc_install 0 "bundle.raucb" false true).1 SetupOutcome.ok
        false [DBusSignal.completed (-1), DBusSignal.completed 0]
        (rauc_install 0 "bundle.raucb" false true).2).map
      (fun r => storesOf r.2)) = some [-1, 0] ∧
    ((install_loop_thread (rauc_install 0 "bundle.raucb" false true).1 SetupOutcome.ok
        false [DBusSignal.completed (-1), DBusSignal.completed 0]
        (rauc_install 0 "bundle.raucb" false true).2).map
      (fun r => r.1.status_result)) = some 0 :=
  ⟨rfl, rfl⟩

/-- C5 (amended): the completion handler stores every received result code,
so `status_result` can be recorded more than once; however every store except
possibly the last is of a negative (non-terminal, protocol-violating) code —
once a result ≥ 0 (a real terminal result or the disconnect sentinel 2) is
stored, the main loop quits and no later completion notification or
disconnect signal is dispatched, so a stored non-negative result is never
overwritten — and a terminating loop's final `status_result` equals that
last stored non-negative value. -/
theorem c5_amended_terminal_store (s : Session) (drain : Bool)
    (ctx : InstallContext) (events : List DBusSignal) (h : ctx.quit = false) :
    (∀ r ∈ (storesOf (runLoop s drain ctx events).2).dropLast, r < 0) ∧
    ((runLoop s drain ctx events).1.quit = true →
      ∃ v, (storesOf (runLoop s drain ctx events).2).getLast? = some v ∧ 0 ≤ v ∧
        (runLoop s drain ctx events).1.status_result = v) :=
  runLoop_storesSpec s drain events ctx h

/-- C5 amended witness: in the concrete `completed(-1); completed(0)` run the
loop terminates and the last store is the non-negative final result. -/
theorem c5_amended_witness :
    ∃ v, (storesOf (runLoop (rauc_install 0 "bundle.raucb" false true).1 false
        (rauc_install 0 "bundle.raucb" false true).2
        [DBusSignal.completed (-1), DBusSignal.completed 0]).2).getLast? = some v ∧
      0 ≤ v ∧
      (runLoop (rauc_install 0 "bundle.raucb" false true).1 false
        (rauc_install 0 "bundle.raucb" false true).2
        [DBusSignal.completed (-1), DBusSignal.completed 0]).1.status_result = v :=
  (c5_amended_terminal_store (rauc_install 0 "bundle.raucb" false true).1 false
    (rauc_install 0 "bundle.raucb" false true).2
    [DBusSignal.completed (-1), DBusSignal.completed 0] rfl).2 rfl

/-- C6: `on_installer_completed` stores the received code into
`status_result`, bracketed by the lock and unlock of the same `status_mutex`
that brackets `on_installer_status`'s event pushes, and it quits the worker's
main loop if and only if the code is ≥ 0 — a negative code is stored but does
not end the wait. -/
theorem c6_completed_stores_under_mutex_quits_iff_nonneg (ctx : InstallContext)
    (r : Int) (s : Session) (ctx2 : InstallContext) (changed : ChangedProps)
    (m : String) :
    (on_installer_completed ctx r).1.status_result = r ∧
    (on_installer_completed ctx r).2.take 3 =
      [MicroAction.lockStatusMutex, MicroAction.storeStatusResult r,
       MicroAction.unlockStatusMutex] ∧
    (MicroAction.mainLoopQuit ∈ (on_installer_completed ctx r).2 ↔ 0 ≤ r) ∧
    (on_installer_completed ctx r).1.quit = (ctx.quit || decide (0 ≤ r)) ∧
    (ctx2.notify_event = true → classify changed = some m →
      (on_installer_status s ctx2 [] changed).2.take 3 =
        [MicroAction.lockStatusMutex, MicroAction.pushTail m,
         MicroAction.unlockStatusMutex]) := by
  refine ⟨rfl, ?_, ?_, rfl, ?_⟩
  · by_cases hr : 0 ≤ r <;> simp [on_installer_completed, hr]
  · by_cases hr : 0 ≤ r <;> simp [on_installer_completed, hr]
  · intro hne hm
    simp [on_installer_status, hne, hm]

/-- C6 witness: `completed(0)` on a concrete context stores 0 and the
status handler brackets a concrete push with the same mutex actions. -/
theorem c6_witness :
    (on_installer_completed (rauc_install 0 "bundle.raucb" true true).2 0).1.status_result
        = 0 ∧
    (on_installer_status (rauc_install 0 "bundle.raucb" true true).1
        (rauc_install 0 "bundle.raucb" true true).2 []
        ⟨some "installing", none, none⟩).2.take 3 =
      [MicroAction.lockStatusMutex, MicroAction.pushTail "installing",
       MicroAction.unlockStatusMutex] :=
  ⟨(c6_completed_stores_under_mutex_quits_iff_nonneg
      (rauc_install 0 "bundle.raucb" true true).2 0
      (rauc_install 0 "bundle.raucb" true true).1
      (rauc_install 0 "bundle.raucb" true true).2
      ⟨some "installing", none, none⟩ "installing").1,
   (c6_completed_stores_under_mutex_quits_iff_nonneg
      (rauc_install 0 "bundle.raucb" true true).2 0
      (rauc_install 0 "bundle.raucb" true true).1
      (rauc_install 0 "bundle.raucb" true true).2
      ⟨some "installing", none, none⟩ "installing").2.2.2.2 rfl rfl⟩

theorem teardownActs_no_events (ctx : InstallContext) :
    MicroAction.enterMainLoop ∉ teardownActs ctx ∧
    (∀ t, MicroAction.contextInvoke t ∉ teardownActs ctx) ∧
    (∀ m, MicroAction.pushTail m ∉ teardownActs ctx) := by
  by_cases hn : ctx.notify_complete = true <;>
    refine ⟨?_, fun t => ?_, fun m => ?_⟩ <;> simp [teardownActs, hn]

/-- C7: on proxy-creation failure, on failure to register either signal
subscription, or on synchronous install-invocation failure, the main loop is
never entered, the session ends with its terminal result equal to the
reserved failure sentinel 2 and an empty queue, and no event record is ever
pushed or delivered. -/
theorem c7_early_exit_sentinel (callerCtx : Nat) (bundle : String) (ne nc : Bool)
    (setup : SetupOutcome) (drain : Bool) (events : List DBusSignal)
    (ctxF : InstallContext) (acts : List MicroAction)
    (hsetup : setup ≠ SetupOutcome.ok)
    (h : install_loop_thread (rauc_install callerCtx bundle ne nc).1 setup drain events
        (rauc_install callerCtx bundle ne nc).2 = some (ctxF, acts)) :
    ctxF.status_result = 2 ∧ ctxF.status_messages = [] ∧
    MicroAction.enterMainLoop ∉ acts ∧
    (∀ t, MicroAction.contextInvoke t ∉ acts) ∧
    (∀ m, MicroAction.pushTail m ∉ acts) := by
  cases setup with
  | ok => exact absurd rfl hsetup
  | proxyFail =>
    simp only [install_loop_thread] at h
    rw [Option.some.injEq, Prod.mk.injEq] at h
    obtain ⟨hctx, hacts⟩ := h
    subst hctx; subst hacts
    exact ⟨rfl, rfl, (teardownActs_no_events _).1, (teardownActs_no_events _).2.1,
      (teardownActs_no_events _).2.2⟩
  | connectStatusFail =>
    simp only [install_loop_thread] at h
    rw [Option.some.injEq, Prod.mk.injEq] at h
    obtain ⟨hctx, hacts⟩ := h
    subst hctx; subst hacts
    exact ⟨rfl, rfl, (teardownActs_no_events _).1, (teardownActs_no_events _).2.1,
      (teardownActs_no_events _).2.2⟩
  | connectCompletedFail =>
    simp only [install_loop_thread] at h
    rw [Option.some.injEq, Prod.mk.injEq] at h
    obtain ⟨hctx, hacts⟩ := h
    subst hctx; subst hacts
    exact ⟨rfl, rfl, (teardownActs_no_events _).1, (teardownActs_no_events _).2.1,
      (teardownActs_no_events _).2.2⟩
  | installCallFail =>
    simp only [install_loop_thread] at h
    rw [Option.some.injEq, Prod.mk.injEq] at h
    obtain ⟨hctx, hacts⟩ := h
    subst hctx; subst hacts
    exact ⟨rfl, rfl, (teardownActs_no_events _).1, (teardownActs_no_events _).2.1,
      (teardownActs_no_events _).2.2⟩

/-- C7 witness: the concrete synchronous-install-failure run keeps the
sentinel 2, an empty queue, and a trace without loop entry or delivery. -/
theorem c7_witness :
    (rauc_install 0 "bundle.raucb" true true).2.status_result = 2 ∧
    (rauc_install 0 "bundle.raucb" true true).2.status_messages = [] ∧
    MicroAction.enterMainLoop ∉
      [MicroAction.disconnectHandlers, MicroAction.invokeComplete,
       MicroAction.freeContext] ∧
    (∀ t, MicroAction.contextInvoke t ∉
      [MicroAction.disconnectHandlers, MicroAction.invokeComplete,
       MicroAction.freeContext]) ∧
    (∀ m, MicroAction.pushTail m ∉
      [MicroAction.disconnectHandlers, MicroAction.invokeComplete,
       MicroAction.freeContext]) :=
  c7_early_exit_sentinel 0 "bundle.raucb" true true SetupOutcome.installCallFail false
    [] (rauc_install 0 "bundle.raucb" true true).2
    [MicroAction.disconnectHandlers, MicroAction.invokeComplete,
     MicroAction.freeContext]
    (fun hk => SetupOutcome.noConfusion hk) (by rfl)

/-- C8: the status handler produces at most one record per notification (the
queue grows by at most one element), and classification follows the priority
order Operation, then Progress, then non-empty LastError; a LastError whose
message is empty, or a payload matching none of the three fields, produces no
record. -/
theorem c8_classification_priority (s : Session) (ctx : InstallContext)
    (inv : List String) (changed : ChangedProps) (name : String)
    (p d : Int) (m e : String) :
    (on_installer_status s ctx inv changed).1.status_messages.length ≤
      ctx.status_messages.length + 1 ∧
    (changed.operation = some name → classify changed = some name) ∧
    (changed.operation = none → changed.progress = some (p, m, d) →
      classify changed = some (printf_width3 p ++ "% " ++ m)) ∧
    (changed.operation = none → changed.progress = none →
      changed.lastError = some e → e ≠ "" →
      classify changed = some ("LastError: " ++ e)) ∧
    (changed.operation = none → changed.progress = none →
      changed.lastError = some "" → classify changed = none) ∧
    (changed.operation = none → changed.progress = none →
      changed.lastError = none → classify changed = none) := by
  refine ⟨?_, ?_, ?_, ?_, ?_, ?_⟩
  · cases inv with
    | cons x rest => simp [on_installer_status]
    | nil =>
      cases hne : ctx.notify_event with
      | false => simp [on_installer_status, hne]
      | true =>
        cases hc : classify changed <;> simp [on_installer_status, hne, hc]
  · intro h1; simp [classify, h1]
  · intro h1 h2; simp [classify, h1, h2]
  · intro h1 h2 h3 h4; simp [classify, h1, h2, h3, h4]
  · intro h1 h2 h3; simp [classify, h1, h2, h3]
  · intro h1 h2 h3; simp [classify, h1, h2, h3]

/-- C8 witness: concrete classifications — priority of Operation over the
other fields, a progress record, and empty-error suppression. -/
theorem c8_witness :
    classify ⟨some "installing", some (1, "x", 2), some "oops"⟩ = some "installing" ∧
    classify ⟨none, some (50, "copying", 1), none⟩ =
      some (printf_width3 50 ++ "% " ++ "copying") ∧
    classify ⟨none, none, some ""⟩ = none :=
  ⟨(c8_classification_priority (rauc_install 0 "bundle.raucb" true true).1
      (rauc_install 0 "bundle.raucb" true true).2 []
      ⟨some "installing", some (1, "x", 2), some "oops"⟩ "installing" 50 1 "copying"
      "").2.1 rfl,
   (c8_classification_priority (rauc_install 0 "bundle.raucb" true true).1
      (rauc_install 0 "bundle.raucb" true true).2 []
      ⟨none, some (50, "copying", 1), none⟩ "installing" 50 1 "copying" "").2.2.1
      rfl rfl,
   (c8_classification_priority (rauc_install 0 "bundle.raucb" true true).1
      (rauc_install 0 "bundle.raucb" true true).2 []
      ⟨none, none, some ""⟩ "installing" 50 1 "copying" "").2.2.2.2.1 rfl rfl rfl⟩

/-- C9 counterexample: two progress notifications differing only in their
depth component (1 versus 2) classify to the identical record
`" 50% copying"` — the formatted record contains only the percent and the
message, so the depth is not carried through to the delivered record. -/
theorem c9_counterexample :
    classify ⟨none, some (50, "copying", 1), none⟩ =
      classify ⟨none, some (50, "copying", 2), none⟩ ∧
    classify ⟨none, some (50, "copying", 1), none⟩ = some " 50% copying" ∧
    (1 : Int) ≠ 2 := by
  decide

/-- C9 (amended): a progress record carries the percent (printf `%3d`
formatted) and the message into the delivered string record; the depth is
looked up from the notification triple but dropped, so records are
independent of it. -/
theorem c9_amended_progress_record (p d d2 : Int) (m : String) :
    classify ⟨none, some (p, m, d), none⟩ =
      some (printf_width3 p ++ "% " ++ m) ∧
    classify ⟨none, some (p, m, d), none⟩ = classify ⟨none, some (p, m, d2), none⟩ :=
  ⟨rfl, rfl⟩

/-- C10: when a notification reports invalidated properties (the RAUC service
vanished), disconnect handling takes priority over any changed properties in
the same notification: the terminal result is set to the disconnect sentinel
2, the main loop is quit, and no record is pushed or delivered from the
changed properties. -/
theorem c10_invalidated_priority (s : Session) (ctx : InstallContext)
    (inv : List String) (changed : ChangedProps) (hinv : inv ≠ []) :
    (on_installer_status s ctx inv changed).1.status_result = 2 ∧
    (on_installer_status s ctx inv changed).1.quit = true ∧
    (on_installer_status s ctx inv changed).1.status_messages =
      ctx.status_messages ∧
    MicroAction.mainLoopQuit ∈ (on_installer_status s ctx inv changed).2 ∧
    (∀ m, MicroAction.pushTail m ∉ (on_installer_status s ctx inv changed).2) ∧
    (∀ t, MicroAction.contextInvoke t ∉ (on_installer_status s ctx inv changed).2) := by
  refine ⟨?_, ?_, ?_, ?_, fun m => ?_, fun t => ?_⟩ <;>
    simp [on_installer_status, hinv]

/-- C10 witness: a concrete notification that both invalidates properties
and carries a classifiable "Operation" change sets the sentinel and leaves
the queue untouched. -/
theorem c10_witness :
    (on_installer_status (rauc_install 0 "bundle.raucb" true true).1
        (rauc_install 0 "bundle.raucb" true true).2 ["Operation"]
        ⟨some "installing", none, none⟩).1.status_result = 2 ∧
    (on_installer_status (rauc_install 0 "bundle.raucb" true true).1
        (rauc_install 0 "bundle.raucb" true true).2 ["Operation"]
        ⟨some "installing", none, none⟩).1.status_messages =
      (rauc_install 0 "bundle.raucb" true true).2.status_messages :=
  ⟨(c10_invalidated_priority (rauc_install 0 "bundle.raucb" true true).1
      (rauc_install 0 "bundle.raucb" true true).2 ["Operation"]
      ⟨some "installing", none, none⟩ (by simp)).1,
   (c10_invalidated_priority (rauc_install 0 "bundle.raucb" true true).1
      (rauc_install 0 "bundle.raucb" true true).2 ["Operation"]
      ⟨some "installing", none, none⟩ (by simp)).2.2.1⟩

end RaucInstaller
